import Mathlib

set_option maxRecDepth 8192

/-!
Verification of `tools/log_reconcile` (files `add_timezh.py` and
`validate_orders_vs_decisions.py`).

Modelling conventions used throughout:
* Instants (`datetime` values) are represented by their epoch offset in
  **milliseconds** as an `Int`.  The ledger loader builds its instants via
  `utcfromtimestamp(ms / 1000.0)` from a millisecond count, so a
  millisecond-resolution integer encoding is exact for every value the
  program constructs.  `timedelta` comparisons on `total_seconds()` are
  order-isomorphic to comparisons on the millisecond difference in the
  value ranges that arise here (sub-microsecond float rounding is out of
  scope).
* Python numbers that flow through `float(...)` are modelled as rationals
  (`ℚ`); IEEE-754 rounding is out of scope.
* Python `//` (floor division) on integers is `Int.fdiv`; `int()` applied
  to a float truncates toward zero, which is `Int.div` on `num/den`.
* Loosely-typed JSON values are modelled by `JVal`; a missing dictionary
  key (`dict.get` returning `None`) is `JVal.null`.
-/

/-! ### `add_timezh.py` -/

/-- `len(str(abs(v)))`: the number of decimal digits of `|v|`
(`0` has one digit, as in Python). -/
def numDigitsAbs (v : Int) : Nat :=
  (Nat.repr v.natAbs).length

/-- `_epoch_to_seconds` from `add_timezh.py`: normalize an epoch value to
whole seconds by decimal digit count (≥19 → ns, ≥16 → µs, ≥13 → ms, else
seconds), using Python `//` (floor division). -/
def epoch_to_seconds (v : Int) : Int :=
  if 19 ≤ numDigitsAbs v then Int.fdiv v 1000000000
  else if 16 ≤ numDigitsAbs v then Int.fdiv v 1000000
  else if 13 ≤ numDigitsAbs v then Int.fdiv v 1000
  else v

/-! ### Loosely-typed input values (`json.load` output) -/

/-- A loosely-typed JSON scalar as produced by `json.load`.  A missing
dictionary key is `JVal.null`.  (Nested containers never reach the
coercion sites modelled here.) -/
inductive JVal where
  | null : JVal
  | b (x : Bool) : JVal
  | i (n : Int) : JVal
  | s (str : String) : JVal
  | f (q : ℚ) : JVal
deriving DecidableEq

/-- Python truthiness of a `JVal` (`None`, `False`, `0`, `0.0`, `""` are
falsy). -/
def JVal.truthy : JVal → Bool
  | .null => false
  | .b x => x
  | .i n => decide (n ≠ 0)
  | .f q => decide (q ≠ 0)
  | .s str => decide (str ≠ "")

/-- Python `str(v)`.  (`str` never raises.  The textual form of a float is
approximated by the rational's `toString`; no claim inspects the text of a
float-valued string field.) -/
def pyStr : JVal → String
  | .null => "None"
  | .b true => "True"
  | .b false => "False"
  | .i n => toString n
  | .s str => str
  | .f q => toString q

/-- Python `int(v)`, `none` when `int()` raises.  `int` of a float
truncates toward zero; `int` of a string accepts an optionally signed
digit string (exotic forms such as underscores or a leading `+` are not
modelled; no claim depends on them). -/
def pyInt : JVal → Option Int
  | .null => none
  | .b x => some (if x then 1 else 0)
  | .i n => some n
  | .f q => some (Int.tdiv q.num q.den)
  | .s str => str.trim.toInt?

/-- Parse a plain decimal literal (optional sign, digits, at most one
point) as a rational: the fragment of Python `float(str)` exercised by
this program.  Exponent/`inf`/`nan` forms are not modelled. -/
def decStringToRat? (s : String) : Option ℚ :=
  let t := s.trim
  let (sign, rest) :=
    if t.startsWith "-" then ((-1 : ℚ), t.drop 1)
    else if t.startsWith "+" then ((1 : ℚ), t.drop 1)
    else ((1 : ℚ), t)
  match rest.split (fun c => c = '.') with
  | [ip] =>
    match ip.toNat? with
    | some n => some (sign * (n : ℚ))
    | none => none
  | [ip, fp] =>
    if ip.all Char.isDigit ∧ fp.all Char.isDigit ∧ (ip ++ fp) ≠ "" then
      match (ip ++ fp).toNat? with
      | some n => some (sign * (n : ℚ) / 10 ^ fp.length)
      | none => none
    else none
  | _ => none

/-- Python `float(v)`, `none` when `float()` raises. -/
def pyFloat : JVal → Option ℚ
  | .null => none
  | .b x => some (if x then 1 else 0)
  | .i n => some (n : ℚ)
  | .f q => some q
  | .s str => decStringToRat? str

/-! ### `validate_orders_vs_decisions.py`: data model -/

/-- `OrderRow` dataclass.  `time` is the instant in epoch milliseconds. -/
structure OrderRow where
  time : Int
  order_id : Int
  symbol : String
  side : String
  position_side : Option String
  reduce_only : Option Bool
  status : String
  type : String
  avg_price : Option ℚ
  executed_qty : Option ℚ
deriving DecidableEq

/-- `DecisionOp` dataclass.  `ts` is the instant in epoch milliseconds. -/
structure DecisionOp where
  ts : Int
  symbol : String
  action : String
  price : Option ℚ
  qty : Option ℚ
  order_id : Option Int
  success : Bool
deriving DecidableEq

/-- `_to_dt_ms`: `utcfromtimestamp(ms / 1000.0)` turns a millisecond count
into the instant `ms` milliseconds after the epoch; in the millisecond
encoding of instants this is the identity.  (The `except` fallback to the
current wall-clock time only fires for timestamps outside the platform's
representable range and is not modelled.) -/
def to_dt_ms (ms : Int) : Int := ms

/-- `within_pct(a, b, tol_pct)` (tri-state): `none` models Python `None`. -/
def within_pct (a b : Option ℚ) (tol_pct : ℚ) : Option Bool :=
  match a, b with
  | some a, some b =>
    if a = 0 ∧ b = 0 then some true
    else if a = 0 ∨ b = 0 then some false
    else some (decide (|a - b| / max (1 / 10 ^ 12) |b| ≤ tol_pct / 100))
  | _, _ => none

/-! ### `validate_orders_vs_decisions.py`: ledger loader -/

/-- One raw element of the orders-export JSON array, as a loosely-typed
record; a key absent from the dictionary is `JVal.null`. -/
structure RawOrder where
  orderId : JVal
  symbol : JVal
  side : JVal
  positionSide : JVal
  reduceOnly : JVal
  status : JVal
  type : JVal
  avgPrice : JVal
  executedQty : JVal
  time : JVal
  updateTime : JVal
deriving DecidableEq

/-- A top-level element of the orders array: a dictionary, or something
else (skipped by the `isinstance(o, dict)` guard). -/
inductive RawItem where
  | obj (o : RawOrder) : RawItem
  | nondict : RawItem
deriving DecidableEq

/-- The body of the per-record `try` block of `load_orders`: `none` means
an exception was raised and the record is dropped (`continue`).  The only
fallible operations are `int()` on `orderId` and on the time field;
`avgPrice`/`executedQty` coercion failures are caught by inner
`try/except` and only null the field. -/
def parse_order_row (o : RawOrder) : Option OrderRow :=
  match pyInt o.orderId with
  | none => none
  | some order_id =>
    match (if o.time ≠ JVal.null then pyInt o.time
           else if o.updateTime.truthy then pyInt o.updateTime else some 0) with
    | none => none
    | some time_ms =>
      some {
        time := to_dt_ms time_ms
        order_id := order_id
        symbol := pyStr o.symbol
        side := if o.side.truthy then pyStr o.side else ""
        position_side := if o.positionSide.truthy then some (pyStr o.positionSide) else none
        reduce_only := if o.reduceOnly = JVal.null then none else some o.reduceOnly.truthy
        status := if o.status.truthy then pyStr o.status else ""
        type := if o.type.truthy then pyStr o.type else ""
        avg_price := pyFloat o.avgPrice
        executed_qty := pyFloat o.executedQty
      }

/-- `load_orders`: the loop over the decoded array, skipping non-dict
elements and records whose `try` body raises. -/
def load_orders : List RawItem → List OrderRow
  | [] => []
  | RawItem.nondict :: rest => load_orders rest
  | RawItem.obj o :: rest =>
    match parse_order_row o with
    | none => load_orders rest
    | some r => r :: load_orders rest

/-- The dict comprehension `{o.order_id: o for o in orders}` followed by a
key lookup: for duplicate ids the **last** record wins. -/
def order_by_id (orders : List OrderRow) (i : Int) : Option OrderRow :=
  (orders.filter (fun o => o.order_id == i)).getLast?

/-! ### `validate_orders_vs_decisions.py`: matcher -/

/-- `action_to_order_filters`: (side, positionSide, reduceOnly); `none`
means no constraint. -/
def action_to_order_filters (action : String) : String × Option String × Option Bool :=
  if action = "open_long" then ("BUY", some "LONG", some false)
  else if action = "open_short" then ("SELL", some "SHORT", some false)
  else if action = "close_long" then ("SELL", some "LONG", some true)
  else if action = "close_short" then ("BUY", some "SHORT", some true)
  else ("", none, none)

/-- Python truthiness of an `Optional[str]` (`None` and `""` are falsy). -/
def optStrTruthy : Option String → Bool
  | none => false
  | some s => decide (s ≠ "")

/-- `reduce_only is not None and o.reduce_only is not None and
o.reduce_only != reduce_only` (expected constraint first). -/
def reduceOnlyMismatch (expected actual : Option Bool) : Bool :=
  match expected, actual with
  | some e, some r => r != e
  | _, _ => false

/-- The candidate list built by the loop in `find_best_order_match`: each
`continue` condition negated and conjoined, applied as a filter (which
preserves ledger order, as the loop's `append` does). -/
def candidateOrders (dec : DecisionOp) (orders : List OrderRow)
    (time_tol_sec : Int) (allow_reduce_mismatch : Bool) : List OrderRow :=
  let f := action_to_order_filters dec.action
  orders.filter (fun o =>
    o.symbol == dec.symbol &&
    o.status == "FILLED" &&
    o.side == f.1 &&
    !(decide (o.time < dec.ts - time_tol_sec * 1000)) &&
    !(decide (o.time > dec.ts + time_tol_sec * 1000)) &&
    !(optStrTruthy f.2.1 && optStrTruthy o.position_side && f.2.1 != o.position_side) &&
    !(reduceOnlyMismatch f.2.2 o.reduce_only && !allow_reduce_mismatch))

/-- `candidates.sort(key=lambda x: abs(total_seconds(x.time - dec.ts)))`
followed by `candidates[0]`: Python's sort is stable, so the head of the
sorted list is the first element (in ledger order) attaining the minimal
absolute time difference; this recursion computes exactly that element. -/
def pickBest (ts : Int) : List OrderRow → Option OrderRow
  | [] => none
  | a :: rest =>
    match pickBest ts rest with
    | none => some a
    | some b => if |b.time - ts| < |a.time - ts| then some b else some a

/-- `find_best_order_match`. -/
def find_best_order_match (dec : DecisionOp) (orders : List OrderRow)
    (time_tol_sec : Int) (allow_reduce_mismatch : Bool := true) : Option OrderRow :=
  pickBest dec.ts (candidateOrders dec orders time_tol_sec allow_reduce_mismatch)

/-- The per-decision matching steps of `main` (the loop body up to the
`o is None` test): the `order_id` lookup — note the Python truthiness test
`if d.order_id`, under which `order_id == 0` counts as absent — and, in
lenient mode only, the time-window fallback with
`allow_reduce_mismatch = not strict`.  Returns the matched row (if any)
and the `match_method` string variable. -/
def matchDecision (strict : Bool) (orders : List OrderRow) (time_tol_sec : Int)
    (d : DecisionOp) : Option OrderRow × String :=
  let idMatch : Option OrderRow :=
    match d.order_id with
    | some i => if i ≠ 0 then order_by_id orders i else none
    | none => none
  match idMatch with
  | some o => (some o, "order_id")
  | none =>
    if !strict then
      match find_best_order_match d orders time_tol_sec (!strict) with
      | some o => (some o, "time_window")
      | none => (none, "")
    else (none, "")

/-! ### `validate_orders_vs_decisions.py`: validation (pass/fail policy) -/

/-- The strict-mode override block of `main`: forces `qty_ok = False` when
`exp_pos_side and (o.position_side or '') != exp_pos_side` — note that an
**absent** `position_side` is read as `''`, which never equals the
expected `LONG`/`SHORT` — or when the expected and actual `reduceOnly` are
both present and differ. -/
def strictQtyOverride (action : String) (o : OrderRow) (qty_ok : Option Bool) : Option Bool :=
  let f := action_to_order_filters action
  let q1 := if optStrTruthy f.2.1 && ((o.position_side.getD "") != f.2.1.getD "")
            then some false else qty_ok
  if reduceOnlyMismatch f.2.2 o.reduce_only then some false else q1

/-- The overall pass decision of `main` for a matched event: verdicts from
`within_pct`, the strict-mode override, then
`passed = price_ok is True and qty_ok is True` (strict) or
`price_ok in (True, None) and qty_ok in (True, None)` (lenient). -/
def eventPassed (strict : Bool) (d : DecisionOp) (o : OrderRow)
    (price_tol_pct qty_tol_pct : ℚ) : Bool :=
  let price_ok := within_pct d.price o.avg_price price_tol_pct
  let qty_ok0 := within_pct d.qty o.executed_qty qty_tol_pct
  let qty_ok := if strict then strictQtyOverride d.action o qty_ok0 else qty_ok0
  if strict then price_ok == some true && qty_ok == some true
  else (price_ok == some true || price_ok == none) &&
       (qty_ok == some true || qty_ok == none)

/-! ### `validate_orders_vs_decisions.py`: decision-event extractor -/

/-- One element of a document's `decisions` array, loosely typed.
`timestamp` is the entry's own instant when the field is a parseable ISO
string (`fromisoformat` itself is abstracted to its result), `none`
otherwise; `success` is `none` when the key is absent (`'success' in d`). -/
structure DecEntry where
  action : JVal
  symbol : JVal
  price : JVal
  quantity : JVal
  order_id : JVal
  timestamp : Option Int
  success : Option JVal
deriving DecidableEq

/-- One `decision_*.json` document.  `tsBase` is the resolved base instant
(the declared `timestamp` when parseable, else the file's mtime — the ISO
parse and mtime fallback are abstracted to the resulting instant).  Each
`execution_log` line is represented by its `EXEC_LOG_RE` match result:
`some (symbol, action)` when the regex matches, `none` for non-string or
non-matching lines. -/
structure DecisionDoc where
  tsBase : Int
  decisions : List DecEntry
  execLog : List (Option (String × String))
deriving DecidableEq

/-- The structured pass over one `decisions` entry: retained (as a
`DecisionOp`) only when `action` is one of the four recognized strings,
`symbol` is a string, and `success` is truthy; `price`/`quantity`/
`order_id` are independently nullable on coercion failure; the entry's own
timestamp overrides the document base when present. -/
def parse_decision_entry (ts_base : Int) (e : DecEntry) : Option DecisionOp :=
  match e.action with
  | JVal.s a =>
    if a == "open_long" || a == "open_short" || a == "close_long" || a == "close_short" then
      match e.symbol with
      | JVal.s sym =>
        let succ := match e.success with
          | none => false
          | some v => v.truthy
        if succ then
          some {
            ts := (e.timestamp.getD ts_base)
            symbol := sym
            action := a
            price := pyFloat e.price
            qty := pyFloat e.quantity
            order_id := pyInt e.order_id
            success := true
          }
        else none
      | _ => none
    else none
  | _ => none

/-- One step of the free-text fallback scan in `parse_decision_ops`: a
non-matching line leaves the accumulated events unchanged; a line matched
as `(symbol, action)` appends a fallback event unless **any
already-accumulated event** (structured or fallback) has the same symbol,
same action, and a timestamp strictly within 600 seconds of the current
document's base timestamp. -/
def fallbackStep (base : Int) (acc : List DecisionOp)
    (line : Option (String × String)) : List DecisionOp :=
  match line with
  | none => acc
  | some (sym, act) =>
    if acc.any (fun o =>
        o.symbol == sym && o.action == act && decide (|o.ts - base| < 600 * 1000))
    then acc
    else acc ++ [{ ts := base, symbol := sym, action := act,
                   price := none, qty := none, order_id := none, success := true }]

/-- Processing of one document inside `parse_decision_ops`: append all
structured events to the events accumulated from earlier documents, then
fold the free-text fallback scan over the `execution_log` lines. -/
def processDoc (ops : List DecisionOp) (doc : DecisionDoc) : List DecisionOp :=
  doc.execLog.foldl (fallbackStep doc.tsBase)
    (ops ++ doc.decisions.filterMap (parse_decision_entry doc.tsBase))

/-- `parse_decision_ops` over the (lexicographically sorted) document
collection. -/
def parse_decision_ops (docs : List DecisionDoc) : List DecisionOp :=
  docs.foldl processDoc []

/-! ### Shared helper lemmas -/

/-- The action table never returns an empty expected `positionSide`
string: a present table `positionSide` is always Python-truthy. -/
theorem action_table_pos_side_ne_empty (a p : String)
    (h : (action_to_order_filters a).2.1 = some p) : p ≠ "" := by
  unfold action_to_order_filters at h
  split_ifs at h <;> simp at h <;> subst h <;> decide

/-- `pickBest` only returns elements of its input list. -/
theorem pickBest_mem (ts : Int) (l : List OrderRow) (o : OrderRow)
    (h : pickBest ts l = some o) : o ∈ l := by
  induction l with
  | nil => simp [pickBest] at h
  | cons a rest ih =>
    rw [pickBest] at h
    cases hr : pickBest ts rest with
    | none => rw [hr] at h; simp_all
    | some b =>
      rw [hr] at h
      by_cases hlt : |b.time - ts| < |a.time - ts|
      · simp only [hlt, if_true] at h
        exact List.mem_cons_of_mem a (ih (h ▸ hr))
      · simp only [hlt, if_false] at h
        simp_all

/-! ### C1 -/

/-- C1 amended: the digit-count epoch normalization (`_epoch_to_seconds`
in `add_timezh.py`) divides by 1e9 for ≥19 digits, 1e6 for 16–18 digits,
1e3 for 13–15 digits, and leaves shorter values unchanged, using floor
division; in particular 10-, 13-, 16- and 19-digit inputs are divided by
1, 1e3, 1e6 and 1e9 respectively. -/
theorem C1_epoch_digit_normalization (v : Int) :
    (19 ≤ numDigitsAbs v → epoch_to_seconds v = Int.fdiv v 1000000000) ∧
    (16 ≤ numDigitsAbs v → numDigitsAbs v < 19 → epoch_to_seconds v = Int.fdiv v 1000000) ∧
    (13 ≤ numDigitsAbs v → numDigitsAbs v < 16 → epoch_to_seconds v = Int.fdiv v 1000) ∧
    (numDigitsAbs v < 13 → epoch_to_seconds v = v) := by
  unfold epoch_to_seconds
  refine ⟨?_, ?_, ?_, ?_⟩ <;> intros <;> split_ifs <;> first | rfl | omega

/-- C1 witness: the four digit-count classes at concrete inputs. -/
theorem C1_epoch_digit_normalization_witness :
    epoch_to_seconds 1234567890 = 1234567890 ∧
    epoch_to_seconds 1234567890123 = 1234567890 ∧
    epoch_to_seconds 1234567890123456 = 1234567890 ∧
    epoch_to_seconds 1234567890123456789 = 1234567890 :=
  ⟨by rw [(C1_epoch_digit_normalization 1234567890).2.2.2 (by decide)],
   by rw [(C1_epoch_digit_normalization 1234567890123).2.2.1 (by decide) (by decide)]; decide,
   by rw [(C1_epoch_digit_normalization 1234567890123456).2.1 (by decide) (by decide)]; decide,
   by rw [(C1_epoch_digit_normalization 1234567890123456789).1 (by decide)]; decide⟩

/-- A ledger record whose `time` field is the 10-digit value `1700000000`
(i.e. a seconds-resolution epoch). -/
def c1Raw : RawOrder :=
  ⟨JVal.i 1, JVal.s "BTCUSDT", JVal.s "BUY", JVal.null, JVal.null,
   JVal.s "FILLED", JVal.null, JVal.null, JVal.null, JVal.i 1700000000, JVal.null⟩

/-- C1 counterexample: the **order ledger loader** does *not* normalize by
digit count — `_to_dt_ms` always interprets the epoch field as
milliseconds.  For the 10-digit input `1700000000` the claim demands a
normalized value of `1700000000` seconds, but the loader produces the
instant `1700000` seconds (`1700000 * 1000` in the millisecond encoding of
instants). -/
theorem C1_counterexample :
    numDigitsAbs 1700000000 = 10 ∧
    (load_orders [RawItem.obj c1Raw]).map OrderRow.time = [1700000 * 1000] ∧
    (1700000 : Int) * 1000 ≠ 1700000000 * 1000 := by decide

/-! ### C2 -/

/-- C2 amended: for every decision event carrying a **nonzero** `orderId`
present in the ledger, the matcher returns the ledger record with that
`orderId` (method `order_id`, the code's name for `by_identifier`) in both
modes, regardless of the other ledger records and of the time tolerance.
(An `orderId` of `0` is Python-falsy and is treated as absent by
`if d.order_id`.) -/
theorem C2_identifier_match_precedence (strict : Bool) (orders : List OrderRow)
    (tol : Int) (d : DecisionOp) (i : Int) (r : OrderRow)
    (hid : d.order_id = some i) (hnz : i ≠ 0) (hfound : order_by_id orders i = some r) :
    matchDecision strict orders tol d = (some r, "order_id") := by
  simp [matchDecision, hid, hnz, hfound]

/-- The ledger record the event points at (id 42), placed *farther* from
the event in time than the decoy. -/
def c2Target : OrderRow :=
  ⟨150000, 42, "BTCUSDT", "BUY", some "LONG", some false, "FILLED", "MARKET", some 100, some 1⟩

/-- A decoy ledger record with a different id, closer in time to the event
and a valid time-window candidate. -/
def c2Decoy : OrderRow :=
  ⟨0, 43, "BTCUSDT", "BUY", some "LONG", some false, "FILLED", "MARKET", some 100, some 1⟩

/-- The event: `orderId = 42`, at time 0. -/
def c2Dec : DecisionOp :=
  ⟨0, "BTCUSDT", "open_long", some 100, some 1, some 42, true⟩

/-- C2 witness: identifier match wins over a closer time-window decoy, in
both strict and lenient mode. -/
theorem C2_identifier_match_precedence_witness :
    matchDecision true [c2Decoy, c2Target] 180 c2Dec = (some c2Target, "order_id") ∧
    matchDecision false [c2Decoy, c2Target] 180 c2Dec = (some c2Target, "order_id") :=
  ⟨C2_identifier_match_precedence true [c2Decoy, c2Target] 180 c2Dec 42 c2Target rfl
      (by decide) (by decide),
   C2_identifier_match_precedence false [c2Decoy, c2Target] 180 c2Dec 42 c2Target rfl
      (by decide) (by decide)⟩

/-- A ledger record with `orderId = 0`, itself a perfect candidate for the
event. -/
def c2ZeroRow : OrderRow :=
  ⟨0, 0, "BTCUSDT", "BUY", some "LONG", some false, "FILLED", "MARKET", some 100, some 1⟩

/-- The event carrying `orderId = 0`, which *is* present in the ledger. -/
def c2ZeroDec : DecisionOp :=
  ⟨0, "BTCUSDT", "open_long", none, none, some 0, true⟩

/-- C2 counterexample: an event whose `orderId` (`0`) is present in the
ledger is **not** identifier-matched: `if d.order_id` reads `0` as falsy.
In strict mode the event is unmatched; in lenient mode it is only
recovered by the time-window fallback (method `time_window`, not
`order_id`). -/
theorem C2_counterexample :
    c2ZeroDec.order_id = some 0 ∧
    order_by_id [c2ZeroRow] 0 = some c2ZeroRow ∧
    matchDecision true [c2ZeroRow] 180 c2ZeroDec = (none, "") ∧
    matchDecision false [c2ZeroRow] 180 c2ZeroDec = (some c2ZeroRow, "time_window") := by
  decide

/-! ### C3 -/

/-- C3: in strict mode an event whose `orderId` is absent, or present but
not found in the ledger, is unmatched — the conclusion holds for *every*
ledger and tolerance, so the time-window fallback is never attempted. -/
theorem C3_strict_mode_unmatched (orders : List OrderRow) (tol : Int) (d : DecisionOp)
    (h : d.order_id = none ∨ ∃ i, d.order_id = some i ∧ order_by_id orders i = none) :
    matchDecision true orders tol d = (none, "") := by
  rcases h with h | ⟨i, hi, hn⟩
  · simp [matchDecision, h]
  · by_cases hz : i = 0 <;> simp [matchDecision, hi, hn, hz]

/-- A perfect time-window candidate for the witness event. -/
def c3Row : OrderRow :=
  ⟨0, 7, "ETHUSDT", "BUY", some "LONG", some false, "FILLED", "MARKET", some 2000, some 1⟩

/-- The witness event: no `orderId`, otherwise matching `c3Row` exactly. -/
def c3Dec : DecisionOp :=
  ⟨30000, "ETHUSDT", "open_long", some 2005, some 1, none, true⟩

/-- C3 witness: strict mode leaves the event unmatched although a perfect
time-window candidate exists. -/
theorem C3_strict_mode_unmatched_witness :
    matchDecision true [c3Row] 180 c3Dec = (none, "") :=
  C3_strict_mode_unmatched [c3Row] 180 c3Dec (Or.inl rfl)

/-! ### C4 -/

/-- The time-window candidate condition as the specification words it:
equal symbol, status `FILLED`, the table's side, timestamp within the
inclusive window, and — when both the table's `positionSide` and the
record's `positionSide` are present — equal `positionSide`.  (No
`reduceOnly` condition: in lenient matching a `reduceOnly` mismatch does
not exclude a record.) -/
def specTimeWindowCandidate (dec : DecisionOp) (tol : Int) (o : OrderRow) : Prop :=
  o.symbol = dec.symbol ∧
  o.status = "FILLED" ∧
  o.side = (action_to_order_filters dec.action).1 ∧
  dec.ts - tol * 1000 ≤ o.time ∧ o.time ≤ dec.ts + tol * 1000 ∧
  (∀ p q, (action_to_order_filters dec.action).2.1 = some p → o.position_side = some q → q = p)

/-- The loop's `positionSide` skip condition, negated, agrees with the
specification's "when both present, equal" reading, given that a present
table side is non-empty and the record's `positionSide` is never the
empty string (the loader maps `''` to `None`). -/
theorem posSideClause_iff (eps ps : Option String)
    (heps : ∀ p, eps = some p → p ≠ "") (hps : ps ≠ some "") :
    (optStrTruthy eps && optStrTruthy ps && eps != ps) = false ↔
      (∀ p q, eps = some p → ps = some q → q = p) := by
  cases eps with
  | none => simp [optStrTruthy]
  | some p =>
    cases ps with
    | none => simp [optStrTruthy]
    | some q =>
      have hp : p ≠ "" := heps p rfl
      have hq : q ≠ "" := fun hc => hps (by rw [hc])
      have hL : (optStrTruthy (some p) && optStrTruthy (some q) &&
          ((some p : Option String) != some q)) = false ↔ p = q := by
        simp [optStrTruthy, hp, hq, bne_eq_false_iff_eq]
      rw [hL]
      constructor
      · intro h p' q' hp' hq'
        injection hp' with e1
        injection hq' with e2
        subst e1; subst e2; exact h.symm
      · intro h
        exact (h p q rfl rfl).symm

/-- C4: for a ledger whose records never carry an empty-string
`positionSide` (as the loader guarantees), the lenient time-window
candidate list is exactly the ledger records satisfying the
specification's candidate condition — in particular no record with a
status other than `FILLED` (e.g. `NEW`) is ever selected, and `reduceOnly`
mismatches do not exclude candidates. -/
theorem C4_candidate_set (dec : DecisionOp) (orders : List OrderRow) (tol : Int)
    (hps : ∀ r ∈ orders, r.position_side ≠ some "") :
    (∀ o, o ∈ candidateOrders dec orders tol true ↔
       o ∈ orders ∧ specTimeWindowCandidate dec tol o) ∧
    (∀ o, find_best_order_match dec orders tol true = some o → o.status = "FILLED") := by
  have hmem : ∀ o, o ∈ candidateOrders dec orders tol true ↔
      o ∈ orders ∧ specTimeWindowCandidate dec tol o := by
    intro o
    unfold candidateOrders
    rw [List.mem_filter]
    constructor
    · rintro ⟨ho, hb⟩
      refine ⟨ho, ?_⟩
      simp only [Bool.and_eq_true, beq_iff_eq, Bool.not_eq_true', decide_eq_false_iff_not,
        not_lt] at hb
      obtain ⟨⟨⟨⟨⟨⟨hsym, hst⟩, hside⟩, h1⟩, h2⟩, hpos⟩, _⟩ := hb
      exact ⟨hsym, hst, hside, h1, h2, (posSideClause_iff _ _
        (fun p h => action_table_pos_side_ne_empty dec.action p h) (hps o ho)).mp hpos⟩
    · rintro ⟨ho, hsym, hst, hside, h1, h2, hpos⟩
      refine ⟨ho, ?_⟩
      simp only [Bool.and_eq_true, beq_iff_eq, Bool.not_eq_true', decide_eq_false_iff_not,
        not_lt]
      refine ⟨⟨⟨⟨⟨⟨hsym, hst⟩, hside⟩, h1⟩, h2⟩, ?_⟩, by simp⟩
      exact (posSideClause_iff _ _
        (fun p h => action_table_pos_side_ne_empty dec.action p h) (hps o ho)).mpr hpos
  refine ⟨hmem, fun o h => ?_⟩
  have := pickBest_mem dec.ts _ o h
  exact ((hmem o).mp this).2.2.1

/-- A `FILLED` candidate for the C4 witness. -/
def c4Filled : OrderRow :=
  ⟨10000, 11, "ETHUSDT", "BUY", some "LONG", some true, "FILLED", "MARKET", some 2000, some 1⟩

/-- An otherwise matching `NEW` record for the C4 witness. -/
def c4New : OrderRow :=
  ⟨0, 12, "ETHUSDT", "BUY", some "LONG", some false, "NEW", "MARKET", some 2000, some 1⟩

/-- The C4 witness event (`open_long`, so the table expects
`reduceOnly = false`; `c4Filled` carries `reduceOnly = true` and is still
a candidate). -/
def c4Dec : DecisionOp :=
  ⟨0, "ETHUSDT", "open_long", some 2000, some 1, none, true⟩

/-- C4 witness: the candidate characterization at a concrete ledger. -/
theorem C4_candidate_set_witness :
    (c4Filled ∈ candidateOrders c4Dec [c4New, c4Filled] 180 true ↔
      c4Filled ∈ [c4New, c4Filled] ∧ specTimeWindowCandidate c4Dec 180 c4Filled) ∧
    (c4New ∈ candidateOrders c4Dec [c4New, c4Filled] 180 true ↔
      c4New ∈ [c4New, c4Filled] ∧ specTimeWindowCandidate c4Dec 180 c4New) :=
  ⟨(C4_candidate_set c4Dec [c4New, c4Filled] 180 (by decide)).1 c4Filled,
   (C4_candidate_set c4Dec [c4New, c4Filled] 180 (by decide)).1 c4New⟩

/-! ### C5 -/

/-- `pickBest` returns the **first** element (in list order) attaining the
minimal absolute time difference: it is minimal over the whole list, and
everything before it is strictly farther from `ts`. -/
theorem pickBest_first_min (ts : Int) :
    ∀ l : List OrderRow, l ≠ [] →
      ∃ o l1 l2, pickBest ts l = some o ∧ l = l1 ++ o :: l2 ∧
        (∀ x ∈ l, |o.time - ts| ≤ |x.time - ts|) ∧
        (∀ x ∈ l1, |o.time - ts| < |x.time - ts|) := by
  intro l
  induction l with
  | nil => intro h; exact absurd rfl h
  | cons a rest ih =>
    intro _
    cases hr : pickBest ts rest with
    | none =>
      have hrest : rest = [] := by
        cases rest with
        | nil => rfl
        | cons b rest2 =>
          exfalso
          simp only [pickBest] at hr
          cases hpb : pickBest ts rest2 with
          | none => simp [hpb] at hr
          | some c =>
            simp only [hpb] at hr
            by_cases hc : |c.time - ts| < |b.time - ts| <;> simp [hc] at hr
      subst hrest
      exact ⟨a, [], [], by simp [pickBest], rfl, by simp, by simp⟩
    | some b =>
      have hne : rest ≠ [] := by
        intro hnil; subst hnil; simp [pickBest] at hr
      obtain ⟨o, l1, l2, hpick, hdecomp, hmin, hstrict⟩ := ih hne
      have hob : o = b := by rw [hpick] at hr; exact Option.some.inj hr
      subst hob
      by_cases hlt : |o.time - ts| < |a.time - ts|
      · refine ⟨o, a :: l1, l2, ?_, ?_, ?_, ?_⟩
        · simp only [pickBest, hr]; simp [hlt]
        · rw [hdecomp]; rfl
        · intro x hx
          rcases List.mem_cons.mp hx with rfl | hx
          · exact le_of_lt hlt
          · exact hmin x hx
        · intro x hx
          rcases List.mem_cons.mp hx with rfl | hx
          · exact hlt
          · exact hstrict x hx
      · refine ⟨a, [], rest, ?_, rfl, ?_, by simp⟩
        · simp only [pickBest, hr]; simp [hlt]
        · intro x hx
          rcases List.mem_cons.mp hx with rfl | hx
          · exact le_refl _
          · exact le_trans (not_lt.mp hlt) (hmin x hx)

/-- C5: when the candidate list is non-empty, `find_best_order_match`
returns a candidate with the smallest absolute time difference to the
event, and among equidistant candidates the first one in the candidate
list — which `List.filter` keeps in ledger order — so the choice is a
deterministic function of the inputs. -/
theorem C5_nearest_first_tiebreak (dec : DecisionOp) (orders : List OrderRow)
    (tol : Int) (arm : Bool)
    (h : candidateOrders dec orders tol arm ≠ []) :
    ∃ o l1 l2, find_best_order_match dec orders tol arm = some o ∧
      candidateOrders dec orders tol arm = l1 ++ o :: l2 ∧
      (∀ x ∈ candidateOrders dec orders tol arm, |o.time - dec.ts| ≤ |x.time - dec.ts|) ∧
      (∀ x ∈ l1, |o.time - dec.ts| < |x.time - dec.ts|) :=
  pickBest_first_min dec.ts (candidateOrders dec orders tol arm) h

/-- First of two equidistant candidates (60 s before the event). -/
def c5Early : OrderRow :=
  ⟨-60000, 21, "ETHUSDT", "BUY", some "LONG", some false, "FILLED", "MARKET", some 2000, some 1⟩

/-- Second of two equidistant candidates (60 s after the event). -/
def c5Late : OrderRow :=
  ⟨60000, 22, "ETHUSDT", "BUY", some "LONG", some false, "FILLED", "MARKET", some 2000, some 1⟩

/-- The C5 witness event, at time 0, equidistant from both candidates. -/
def c5Dec : DecisionOp :=
  ⟨0, "ETHUSDT", "open_long", some 2000, some 1, none, true⟩

/-- C5 witness: with two equidistant candidates the matcher picks the
first one in ledger order. -/
theorem C5_nearest_first_tiebreak_witness :
    find_best_order_match c5Dec [c5Early, c5Late] 180 true = some c5Early ∧
    (∃ o l1 l2, find_best_order_match c5Dec [c5Early, c5Late] 180 true = some o ∧
      candidateOrders c5Dec [c5Early, c5Late] 180 true = l1 ++ o :: l2 ∧
      (∀ x ∈ candidateOrders c5Dec [c5Early, c5Late] 180 true,
        |o.time - c5Dec.ts| ≤ |x.time - c5Dec.ts|) ∧
      (∀ x ∈ l1, |o.time - c5Dec.ts| < |x.time - c5Dec.ts|)) :=
  ⟨by decide, C5_nearest_first_tiebreak c5Dec [c5Early, c5Late] 180 true (by decide)⟩

/-! ### C6 -/

/-- C6 amended: `within_pct` is not-applicable when either argument is
absent, true when both are zero, false when exactly one is zero, and
otherwise compares `|claimed - actual| / max(1e-12, |actual|)` against
`tol_pct/100`; whenever `|actual| ≥ 1e-12` this agrees with the claimed
test `|claimed - actual| / |actual| ≤ tol_pct/100`, for both the true and
the false outcome. -/
theorem C6_within_pct_characterization (a b t : ℚ) :
    (∀ y : Option ℚ, within_pct none y t = none) ∧
    (∀ x : Option ℚ, within_pct x none t = none) ∧
    within_pct (some 0) (some 0) t = some true ∧
    (a ≠ 0 → within_pct (some a) (some 0) t = some false) ∧
    (b ≠ 0 → within_pct (some 0) (some b) t = some false) ∧
    (a ≠ 0 → b ≠ 0 → 1 / 10 ^ 12 ≤ |b| →
      ((within_pct (some a) (some b) t = some true ↔ |a - b| / |b| ≤ t / 100) ∧
       (within_pct (some a) (some b) t = some false ↔ ¬(|a - b| / |b| ≤ t / 100)))) := by
  refine ⟨fun y => by cases y <;> rfl, fun x => by cases x <;> rfl,
    by simp [within_pct], fun ha => by simp [within_pct, ha],
    fun hb => by simp [within_pct, hb], fun ha hb hge => ?_⟩
  have h : within_pct (some a) (some b) t =
      some (decide (|a - b| / max (1 / 10 ^ 12) |b| ≤ t / 100)) := by
    simp [within_pct, ha, hb]
  rw [h, max_eq_right hge]
  constructor
  · simp only [Option.some.injEq, decide_eq_true_eq]
  · simp only [Option.some.injEq, decide_eq_false_iff_not]

/-- C6 witness: the claimed concrete instances (with `100.4 = 502/5`), via
the characterization. -/
theorem C6_within_pct_characterization_witness :
    within_pct (some 100) (some (502 / 5)) (1 / 2) = some true ∧
    within_pct (some 100) (some 102) (1 / 2) = some false ∧
    within_pct none (some 100) (1 / 2) = none ∧
    within_pct (some 0) (some 0) 7 = some true ∧
    within_pct (some 0) (some 5) 7 = some false :=
  ⟨((C6_within_pct_characterization 100 (502 / 5) (1 / 2)).2.2.2.2.2
      (by norm_num) (by norm_num)
      (by rw [abs_of_pos (show (0 : ℚ) < 502 / 5 from by norm_num)]; norm_num)).1.mpr
      (by rw [show (100 : ℚ) - 502 / 5 = -(2 / 5) from by norm_num, abs_neg,
            abs_of_pos (show (0 : ℚ) < 2 / 5 from by norm_num),
            abs_of_pos (show (0 : ℚ) < 502 / 5 from by norm_num)]
          norm_num),
   ((C6_within_pct_characterization 100 102 (1 / 2)).2.2.2.2.2
      (by norm_num) (by norm_num)
      (by rw [abs_of_pos (show (0 : ℚ) < 102 from by norm_num)]; norm_num)).2.mpr
      (by rw [show (100 : ℚ) - 102 = -2 from by norm_num, abs_neg,
            abs_of_pos (show (0 : ℚ) < 2 from by norm_num),
            abs_of_pos (show (0 : ℚ) < 102 from by norm_num)]
          norm_num),
   rfl,
   by simp [within_pct],
   by simp [within_pct]⟩

/-- C6 counterexample: with `actual = 1e-13`, `claimed = 2e-13` and a
tolerance of 50%, the code returns true (the `max(1e-12, ·)` guard damps
the denominator to 1e-12), while the claimed test
`|claimed - actual| / |actual| ≤ tol_pct/100` is false (the ratio is
1 > 0.5). -/
theorem C6_guard_counterexample :
    within_pct (some (2 / 10 ^ 13)) (some (1 / 10 ^ 13)) 50 = some true ∧
    ¬(|(2 / 10 ^ 13 : ℚ) - 1 / 10 ^ 13| / |(1 / 10 ^ 13 : ℚ)| ≤ 50 / 100) := by
  have habs : |(2 / 10 ^ 13 : ℚ) - 1 / 10 ^ 13| = 1 / 10 ^ 13 := by
    rw [show (2 / 10 ^ 13 : ℚ) - 1 / 10 ^ 13 = 1 / 10 ^ 13 from by norm_num,
      abs_of_pos (show (0 : ℚ) < 1 / 10 ^ 13 from by norm_num)]
  constructor
  · have h : within_pct (some (2 / 10 ^ 13)) (some (1 / 10 ^ 13)) 50 =
        some (decide (|(2 / 10 ^ 13 : ℚ) - 1 / 10 ^ 13| /
          max (1 / 10 ^ 12) |(1 / 10 ^ 13 : ℚ)| ≤ 50 / 100)) := by
      simp [within_pct]
    rw [h, habs, abs_of_pos (show (0 : ℚ) < 1 / 10 ^ 13 from by norm_num),
      max_eq_left (by norm_num : (1 / 10 ^ 13 : ℚ) ≤ 1 / 10 ^ 12)]
    simp only [Option.some.injEq, decide_eq_true_eq]
    norm_num
  · rw [habs, abs_of_pos (show (0 : ℚ) < 1 / 10 ^ 13 from by norm_num)]
    norm_num

/-! ### C7 -/

/-- `reduceOnlyMismatch` is false exactly when "present on both sides
implies equal" holds. -/
theorem reduceOnlyMismatch_false_iff (e a : Option Bool) :
    reduceOnlyMismatch e a = false ↔ (∀ x r, e = some x → a = some r → r = x) := by
  cases e with
  | none => simp [reduceOnlyMismatch]
  | some x =>
    cases a with
    | none => simp [reduceOnlyMismatch]
    | some r => cases x <;> cases r <;> simp [reduceOnlyMismatch]

/-- The strict-mode override yields a true quantity verdict exactly when
the incoming verdict was true, the record's `positionSide` **read with
absence as the empty string** equals the expected one when the latter is
present, and there is no `reduceOnly` mismatch. -/
theorem strictQtyOverride_some_true_iff (action : String) (o : OrderRow) (q : Option Bool) :
    strictQtyOverride action o q = some true ↔
      q = some true ∧
      (∀ p, (action_to_order_filters action).2.1 = some p → o.position_side.getD "" = p) ∧
      reduceOnlyMismatch (action_to_order_filters action).2.2 o.reduce_only = false := by
  unfold strictQtyOverride
  cases hm : reduceOnlyMismatch (action_to_order_filters action).2.2 o.reduce_only with
  | true =>
    rw [if_pos hm]
    simp
  | false =>
    rw [if_neg (by rw [hm]; exact Bool.false_ne_true)]
    cases heps : (action_to_order_filters action).2.1 with
    | none =>
      rw [if_neg (by simp [optStrTruthy])]
      simp
    | some p =>
      have hp : p ≠ "" := action_table_pos_side_ne_empty action p heps
      by_cases hg : o.position_side.getD "" = p
      · rw [if_neg (by simp [optStrTruthy, hp, bne, hg])]
        simp [hg]
      · rw [if_pos (by simp [optStrTruthy, hp, bne, hg])]
        constructor
        · intro h
          exact absurd h (by simp)
        · rintro ⟨-, hpos, -⟩
          exact absurd (hpos p rfl) hg

/-- C7 amended: in lenient mode a matched event passes iff neither verdict
is false; in strict mode it passes iff both verdicts are strictly true,
the record's `positionSide` — **with absence read as the empty string, so
an absent `positionSide` also forces failure** — equals the action's
expected one, and the expected/actual `reduceOnly`, when both present,
agree. -/
theorem C7_pass_policy (d : DecisionOp) (o : OrderRow) (pt qt : ℚ) :
    (eventPassed false d o pt qt = true ↔
      within_pct d.price o.avg_price pt ≠ some false ∧
      within_pct d.qty o.executed_qty qt ≠ some false) ∧
    (eventPassed true d o pt qt = true ↔
      within_pct d.price o.avg_price pt = some true ∧
      within_pct d.qty o.executed_qty qt = some true ∧
      (∀ p, (action_to_order_filters d.action).2.1 = some p → o.position_side.getD "" = p) ∧
      (∀ x r, (action_to_order_filters d.action).2.2 = some x →
        o.reduce_only = some r → r = x)) := by
  constructor
  · have h : eventPassed false d o pt qt =
        ((within_pct d.price o.avg_price pt == some true ||
          within_pct d.price o.avg_price pt == none) &&
         (within_pct d.qty o.executed_qty qt == some true ||
          within_pct d.qty o.executed_qty qt == none)) := rfl
    rw [h]
    cases hp : within_pct d.price o.avg_price pt with
    | none =>
      cases hq : within_pct d.qty o.executed_qty qt with
      | none => simp
      | some qb => cases qb <;> simp
    | some pb =>
      cases hq : within_pct d.qty o.executed_qty qt with
      | none => cases pb <;> simp
      | some qb => cases pb <;> cases qb <;> simp
  · have h : eventPassed true d o pt qt =
        (within_pct d.price o.avg_price pt == some true &&
         strictQtyOverride d.action o (within_pct d.qty o.executed_qty qt) == some true) := rfl
    rw [h, Bool.and_eq_true, beq_iff_eq, beq_iff_eq, strictQtyOverride_some_true_iff,
      reduceOnlyMismatch_false_iff]

/-- A matched row with both verdicts true, present `positionSide` and
agreeing `reduceOnly`, for the C7 witness. -/
def c7GoodRow : OrderRow :=
  ⟨0, 31, "BTCUSDT", "BUY", some "LONG", some false, "FILLED", "MARKET", some 100, some 1⟩

/-- The C7 witness event, matching `c7GoodRow` exactly. -/
def c7GoodDec : DecisionOp :=
  ⟨0, "BTCUSDT", "open_long", some 100, some 1, some 31, true⟩

/-- C7 witness: the lenient pass characterization at a concrete pair. -/
theorem C7_pass_policy_witness :
    eventPassed false c7GoodDec c7GoodRow (1 / 2) 1 = true :=
  (C7_pass_policy c7GoodDec c7GoodRow (1 / 2) 1).1.mpr
    ⟨by norm_num [within_pct, c7GoodDec, c7GoodRow],
     by norm_num [within_pct, c7GoodDec, c7GoodRow]⟩

/-- A matched row identical to `c7GoodRow` except that `positionSide` is
absent. -/
def c7NoPosRow : OrderRow :=
  ⟨0, 32, "BTCUSDT", "BUY", none, some false, "FILLED", "MARKET", some 100, some 1⟩

/-- The event matched to `c7NoPosRow`. -/
def c7NoPosDec : DecisionOp :=
  ⟨0, "BTCUSDT", "open_long", some 100, some 1, some 32, true⟩

/-- C7 counterexample: both verdicts are true, the record's `reduceOnly`
agrees with the expected one, and its `positionSide` is merely **absent**
(not disagreeing) — by the claim the event should pass in strict mode, but
the code forces failure because `(o.position_side or '') != 'LONG'`. -/
theorem C7_counterexample :
    within_pct c7NoPosDec.price c7NoPosRow.avg_price (1 / 2) = some true ∧
    within_pct c7NoPosDec.qty c7NoPosRow.executed_qty 1 = some true ∧
    c7NoPosRow.position_side = none ∧
    (action_to_order_filters c7NoPosDec.action).2.2 = some false ∧
    c7NoPosRow.reduce_only = some false ∧
    eventPassed true c7NoPosDec c7NoPosRow (1 / 2) 1 = false := by
  refine ⟨?_, ?_, rfl, rfl, rfl, ?_⟩
  · norm_num [within_pct, c7NoPosDec, c7NoPosRow]
  · norm_num [within_pct, c7NoPosDec, c7NoPosRow]
  · exact Bool.and_false _

/-! ### C8 -/

/-- A document with no structured decisions and two identical matching
free-text lines. -/
def c8Doc : DecisionDoc :=
  ⟨0, [], [some ("BTCUSDT", "open_long"), some ("BTCUSDT", "open_long")]⟩

/-- C8 counterexample: a fallback event is suppressed by a previously
retained **fallback** event, not only by a structured-pass event.  With no
structured decisions at all and two identical matching free-text lines,
the claim predicts two events (nothing structured exists to suppress
either), but the code produces exactly one. -/
theorem C8_counterexample :
    c8Doc.decisions = [] ∧
    parse_decision_ops [c8Doc] = [⟨0, "BTCUSDT", "open_long", none, none, none, true⟩] :=
  ⟨rfl, rfl⟩

/-- C8 amended: a fallback event is suppressed **iff** some
already-produced event (structured or fallback, from this or an earlier
processed document) has the same symbol, the same action, and a timestamp
strictly within 600 seconds of the current document's base timestamp —
an event exactly 600 s away (or farther) does not suppress.  The
conjuncts: (1) the events accumulated when a document is processed are
exactly those produced by all earlier documents; (2) within a document,
the fallback scan folds over the lines starting from those events plus
this document's structured events; (3) a non-matching line changes
nothing; (4) for a matched line, suppression holds if an in-window event
exists and a fallback event `⟨base, sym, act, no price/qty/orderId⟩` is
appended if none does (both directions of the biconditional, over an
arbitrary accumulated-event list); (5) hence a document with one
structured success decision at `T` (within 600 s of base) plus a matching
free-text line yields exactly that one structured event; (6) a retained
fallback event carries the document base timestamp and no
price/quantity/orderId. -/
theorem C8_fallback_dedup :
    (∀ docs doc,
      parse_decision_ops (docs ++ [doc]) = processDoc (parse_decision_ops docs) doc) ∧
    (∀ ops doc,
      processDoc ops doc =
        doc.execLog.foldl (fallbackStep doc.tsBase)
          (ops ++ doc.decisions.filterMap (parse_decision_entry doc.tsBase))) ∧
    (∀ acc base, fallbackStep base acc none = acc) ∧
    (∀ acc base sym act,
      ((∃ o ∈ acc, o.symbol = sym ∧ o.action = act ∧ |o.ts - base| < 600 * 1000) →
        fallbackStep base acc (some (sym, act)) = acc) ∧
      (¬(∃ o ∈ acc, o.symbol = sym ∧ o.action = act ∧ |o.ts - base| < 600 * 1000) →
        fallbackStep base acc (some (sym, act)) =
          acc ++ [⟨base, sym, act, none, none, none, true⟩])) ∧
    (∀ base T sym act,
      (act = "open_long" ∨ act = "open_short" ∨ act = "close_long" ∨
        act = "close_short") →
      |T - base| < 600 * 1000 →
      parse_decision_ops
          [⟨base, [⟨JVal.s act, JVal.s sym, JVal.null, JVal.null, JVal.null,
            some T, some (JVal.b true)⟩], [some (sym, act)]⟩] =
        [⟨T, sym, act, none, none, none, true⟩]) ∧
    (∀ base sym act,
      parse_decision_ops [⟨base, [], [some (sym, act)]⟩] =
        [⟨base, sym, act, none, none, none, true⟩]) := by
  refine ⟨?_, fun ops doc => rfl, fun acc base => rfl, ?_, ?_, ?_⟩
  · intro docs doc
    simp [parse_decision_ops, List.foldl_append]
  · intro acc base sym act
    constructor
    · intro h
      have hb : (acc.any fun o =>
          o.symbol == sym && o.action == act && decide (|o.ts - base| < 600 * 1000)) = true := by
        simp only [List.any_eq_true, Bool.and_eq_true, beq_iff_eq, decide_eq_true_eq]
        obtain ⟨o, ho, h1, h2, h3⟩ := h
        exact ⟨o, ho, ⟨h1, h2⟩, h3⟩
      simp only [fallbackStep]
      rw [if_pos hb]
    · intro h
      have hb : ¬((acc.any fun o =>
          o.symbol == sym && o.action == act && decide (|o.ts - base| < 600 * 1000)) = true) := by
        simp only [List.any_eq_true, Bool.and_eq_true, beq_iff_eq, decide_eq_true_eq]
        intro hcontra
        obtain ⟨o, ho, ⟨h1, h2⟩, h3⟩ := hcontra
        exact h ⟨o, ho, h1, h2, h3⟩
      simp only [fallbackStep]
      rw [if_neg hb]
  · intro base T sym act hact hT
    have hT2 : |T - base| < 600000 := by simpa using hT
    rcases hact with rfl | rfl | rfl | rfl <;>
      simp [parse_decision_ops, processDoc, fallbackStep, parse_decision_entry,
        JVal.truthy, pyFloat, pyInt, hT2]
  · intro base sym act
    simp [parse_decision_ops, processDoc, fallbackStep]

/-- An event produced from an earlier document (symbol `BTCUSDT`, action
`open_long`, at instant 0), for the C8 witness. -/
def c8PriorOp : DecisionOp :=
  ⟨0, "BTCUSDT", "open_long", none, none, none, true⟩

/-- C8 witness: a line is suppressed by a prior event from an earlier
document 300 s away, but **retained** when the only prior event is
exactly 600 s away (the window is strict); the structured-plus-line
document yields one event; a retained fallback event carries the base
timestamp and no price/quantity/orderId. -/
theorem C8_fallback_dedup_witness :
    fallbackStep 300000 [c8PriorOp] (some ("BTCUSDT", "open_long")) = [c8PriorOp] ∧
    fallbackStep 600000 [c8PriorOp] (some ("BTCUSDT", "open_long")) =
      [c8PriorOp] ++ [⟨600000, "BTCUSDT", "open_long", none, none, none, true⟩] ∧
    parse_decision_ops
        [⟨0, [⟨JVal.s "open_long", JVal.s "ETHUSDT", JVal.null, JVal.null, JVal.null,
          some 30000, some (JVal.b true)⟩], [some ("ETHUSDT", "open_long")]⟩] =
      [⟨30000, "ETHUSDT", "open_long", none, none, none, true⟩] ∧
    parse_decision_ops [⟨0, [], [some ("ETHUSDT", "open_long")]⟩] =
      [⟨0, "ETHUSDT", "open_long", none, none, none, true⟩] :=
  ⟨(C8_fallback_dedup.2.2.2.1 [c8PriorOp] 300000 "BTCUSDT" "open_long").1
      ⟨c8PriorOp, by decide, rfl, rfl, by decide⟩,
   (C8_fallback_dedup.2.2.2.1 [c8PriorOp] 600000 "BTCUSDT" "open_long").2 (by decide),
   C8_fallback_dedup.2.2.2.2.1 0 30000 "ETHUSDT" "open_long" (Or.inl rfl) (by decide),
   C8_fallback_dedup.2.2.2.2.2 0 "ETHUSDT" "open_long"⟩

/-! ### C9 -/

/-- C9: a record whose `orderId` does not coerce to an integer is silently
dropped and the rest of the batch is loaded unchanged — the failure is
local, not fatal (the loader is a total function of the whole batch). -/
theorem C9_uncoercible_orderId_dropped (l1 l2 : List RawItem) (o : RawOrder)
    (h : pyInt o.orderId = none) :
    load_orders (l1 ++ RawItem.obj o :: l2) = load_orders (l1 ++ l2) := by
  induction l1 with
  | nil => simp [load_orders, parse_order_row, h]
  | cons a rest ih =>
    cases a with
    | nondict => simpa [load_orders] using ih
    | obj o2 =>
      simp only [List.cons_append, load_orders]
      cases hp : parse_order_row o2 <;> simp [hp, ih]

/-- A well-formed raw record (id 1). -/
def c9Good1 : RawOrder :=
  ⟨JVal.i 1, JVal.s "BTCUSDT", JVal.s "BUY", JVal.s "LONG", JVal.b false,
   JVal.s "FILLED", JVal.s "MARKET", JVal.f (201 / 2), JVal.f 1,
   JVal.i 1700000000000, JVal.null⟩

/-- A raw record with a missing `orderId` (`int(None)` raises). -/
def c9Bad : RawOrder :=
  ⟨JVal.null, JVal.s "BTCUSDT", JVal.s "SELL", JVal.s "SHORT", JVal.b true,
   JVal.s "FILLED", JVal.s "MARKET", JVal.f (199 / 2), JVal.f 2,
   JVal.i 1700000000001, JVal.null⟩

/-- A well-formed raw record (id 2). -/
def c9Good2 : RawOrder :=
  ⟨JVal.i 2, JVal.s "ETHUSDT", JVal.s "SELL", JVal.s "SHORT", JVal.null,
   JVal.s "NEW", JVal.s "LIMIT", JVal.null, JVal.null,
   JVal.null, JVal.i 1700000000002⟩

/-- C9 witness: dropping the malformed middle record leaves the other two
loaded. -/
theorem C9_uncoercible_orderId_dropped_witness :
    pyInt c9Bad.orderId = none ∧
    load_orders ([RawItem.obj c9Good1] ++ RawItem.obj c9Bad :: [RawItem.obj c9Good2]) =
      load_orders ([RawItem.obj c9Good1] ++ [RawItem.obj c9Good2]) ∧
    (load_orders ([RawItem.obj c9Good1] ++ [RawItem.obj c9Good2])).length = 2 :=
  ⟨rfl,
   C9_uncoercible_orderId_dropped [RawItem.obj c9Good1] [RawItem.obj c9Good2] c9Bad rfl,
   rfl⟩

/-! ### C10 -/

/-- C10: when the raw `time` field is absent, the loader falls back to
`updateTime`; when that is also absent or zero, the record is still
retained (given a coercible `orderId`) with its instant at epoch zero
(`to_dt_ms 0`, i.e. 1970-01-01T00:00:00 UTC), and it is still found by
identifier lookup. -/
theorem C10_time_fallback (o : RawOrder) (oid : Int)
    (hid : pyInt o.orderId = some oid) (ht : o.time = JVal.null) :
    (∀ m, o.updateTime.truthy = true → pyInt o.updateTime = some m →
      ∃ r, parse_order_row o = some r ∧ r.time = m ∧ r.order_id = oid) ∧
    ((o.updateTime = JVal.null ∨ o.updateTime = JVal.i 0) →
      ∃ r, parse_order_row o = some r ∧ r.time = 0 ∧ r.order_id = oid ∧
        order_by_id (load_orders [RawItem.obj o]) oid = some r) := by
  constructor
  · intro m htr hm
    have hp : parse_order_row o = some {
        time := to_dt_ms m
        order_id := oid
        symbol := pyStr o.symbol
        side := if o.side.truthy then pyStr o.side else ""
        position_side := if o.positionSide.truthy then some (pyStr o.positionSide) else none
        reduce_only := if o.reduceOnly = JVal.null then none else some o.reduceOnly.truthy
        status := if o.status.truthy then pyStr o.status else ""
        type := if o.type.truthy then pyStr o.type else ""
        avg_price := pyFloat o.avgPrice
        executed_qty := pyFloat o.executedQty } := by
      simp [parse_order_row, hid, ht, htr, hm]
    exact ⟨_, hp, rfl, rfl⟩
  · intro hu
    have htr : o.updateTime.truthy = false := by
      rcases hu with hu | hu <;> rw [hu] <;> simp [JVal.truthy]
    have hp : parse_order_row o = some {
        time := to_dt_ms 0
        order_id := oid
        symbol := pyStr o.symbol
        side := if o.side.truthy then pyStr o.side else ""
        position_side := if o.positionSide.truthy then some (pyStr o.positionSide) else none
        reduce_only := if o.reduceOnly = JVal.null then none else some o.reduceOnly.truthy
        status := if o.status.truthy then pyStr o.status else ""
        type := if o.type.truthy then pyStr o.type else ""
        avg_price := pyFloat o.avgPrice
        executed_qty := pyFloat o.executedQty } := by
      simp [parse_order_row, hid, ht, htr]
    refine ⟨_, hp, rfl, rfl, ?_⟩
    simp [load_orders, hp, order_by_id]

/-- A raw record with coercible `orderId` and neither `time` nor
`updateTime`. -/
def c10Raw : RawOrder :=
  ⟨JVal.i 7, JVal.s "BTCUSDT", JVal.s "BUY", JVal.s "LONG", JVal.b false,
   JVal.s "FILLED", JVal.s "MARKET", JVal.null, JVal.null, JVal.null, JVal.null⟩

/-- C10 witness: the epoch-zero retention at a concrete record. -/
theorem C10_time_fallback_witness :
    ∃ r, parse_order_row c10Raw = some r ∧ r.time = 0 ∧ r.order_id = 7 ∧
      order_by_id (load_orders [RawItem.obj c10Raw]) 7 = some r :=
  (C10_time_fallback c10Raw 7 rfl rfl).2 (Or.inl rfl)
